import Mathlib

/-!
# IoTSample/server.js : RFID card reader bridge

A shallow embedding of the serial-line handler `process_arduino_line`, the
socket handlers (`connection`, `manual_unlock`, `manual_lock`,
`test_connection`) and the serial link supervisor
(`init_arduino_connection`, `reconnect_arduino`) of `src/IoTSample/server.js`.

Conventions of the embedding:

* a JavaScript string is a list of characters; every literal and every regular
  expression of the source is ASCII, so matching by character is matching by
  code unit;
* `Date.now()` is an integer number of milliseconds, passed in as
  `current_time`; `new Date().toISOString()` is passed in as `timestamp`;
* a handler returns the new global state together with the list of messages
  it emits, in order; `console.log` output is not modelled.
-/

namespace IoTSample

/-! ## Data model -/

/-- A JavaScript string. -/
abbrev JsString := List Char

/-- Source line 11: `const HAPPY_CARD_UID = "6A3C5473"`. -/
def HAPPY_CARD_UID : JsString := ['6', 'A', '3', 'C', '5', '4', '7', '3']

/-- Source line 12: `const UNHAPPY_CARD_UID = "40547CA6"`. -/
def UNHAPPY_CARD_UID : JsString := ['4', '0', '5', '4', '7', 'C', 'A', '6']

/-- The five string constants stored in `last_card_scan.status` (and sent as
`type`): `"admin_unlock"`, `"lock"`, `"unknown"`, `"manual_unlock"`,
`"manual_lock"`. -/
inductive CardStatus where
  | admin_unlock
  | lock
  | unknown
  | manual_unlock
  | manual_lock
  deriving DecidableEq, Repr

/-- The object literal `{ uid, timestamp, status }` stored in `last_card_scan`. -/
structure CardScan where
  uid : JsString
  timestamp : String
  status : CardStatus
  deriving DecidableEq, Repr

/-- The global variables of source lines 20, 21, 23 and 24. -/
structure State where
  is_admin_unlocked : Bool
  last_card_scan : Option CardScan
  last_processed_uid : Option JsString
  last_card_time : Int
  deriving DecidableEq, Repr

/-- The values the globals are initialised with (lines 20 to 24). -/
def State.initial : State :=
  { is_admin_unlocked := false
    last_card_scan := none
    last_processed_uid := none
    last_card_time := 0 }

/-- The payloads of the three socket messages the server sends. -/
inductive Message where
  | status_update (admin_unlocked : Bool) (last_card_scan : Option CardScan)
  | card_processed (uid : JsString) (timestamp : String) (type : CardStatus)
      (admin_unlocked : Bool) (last_card_scan : Option CardScan)
  | test_response (message : String) (server_time : String) (client_data : String)
  deriving DecidableEq, Repr

/-- Who receives an emitted message: `io.emit` reaches every connected client,
`socket.emit` only the client of that socket. -/
inductive Recipient where
  | all
  | socket (id : Nat)
  deriving DecidableEq, Repr

/-- One call of `io.emit` or `socket.emit`. -/
structure Emit where
  recipient : Recipient
  msg : Message
  deriving DecidableEq, Repr

/-! ## String operations used by `process_arduino_line` -/

/-- The literal `"Card UID:"` tested by `line.includes` (line 159). -/
def MARKER : JsString := ['C', 'a', 'r', 'd', ' ', 'U', 'I', 'D', ':']

/-- The literal head `Card UID: ` (with the blank) of the regular expression
of line 161. -/
def REGEX_HEAD : JsString := ['C', 'a', 'r', 'd', ' ', 'U', 'I', 'D', ':', ' ']

/-- `String.prototype.includes`: `needle` occurs somewhere in `hay`. -/
def includes : JsString → JsString → Bool
  | [], needle => needle.isPrefixOf []
  | c :: cs, needle => needle.isPrefixOf (c :: cs) || includes cs needle

/-- The character class `[0-9A-Fa-f]`. -/
def isHexDigit (c : Char) : Bool :=
  ('0' ≤ c && c ≤ '9') || ('A' ≤ c && c ≤ 'F') || ('a' ≤ c && c ≤ 'f')

/-- The character class `[0-9A-F]`. -/
def isUpperHexDigit (c : Char) : Bool :=
  ('0' ≤ c && c ≤ '9') || ('A' ≤ c && c ≤ 'F')

/-- The regular expression of line 161 tried at the start of `l`: the head
`Card UID: `, then the capture group `hh:hh:hh:hh`. Returns the capture group. -/
def matchHere (l : JsString) : Option JsString :=
  if REGEX_HEAD.isPrefixOf l then
    match l.drop 10 with
    | a :: b :: s1 :: c :: d :: s2 :: e :: f :: s3 :: g :: h :: _ =>
      if isHexDigit a && isHexDigit b && s1 == ':' && isHexDigit c && isHexDigit d
          && s2 == ':' && isHexDigit e && isHexDigit f && s3 == ':'
          && isHexDigit g && isHexDigit h then
        some [a, b, s1, c, d, s2, e, f, s3, g, h]
      else none
    | _ => none
  else none

/-- The call `line.match(/Card UID: (..:..:..:..)/)`: the pattern is not anchored,
so it is tried at offset 0, 1, 2, ... and the first offset where it matches
wins. Returns capture group 1 (`uid_match[1]`), or `none` for a `null` match. -/
def regexMatch : JsString → Option JsString
  | [] => matchHere []
  | c :: cs =>
    match matchHere (c :: cs) with
    | some grp => some grp
    | none => regexMatch cs

/-- The call `.replace(/:/g, "")`: delete every colon. -/
def removeColons (s : JsString) : JsString := s.filter (fun c => c != ':')

/-- The call `.toUpperCase()`, on the characters it is applied to here (hex
digits): `a` to `z` become `A` to `Z`, every other character of the capture
group is unchanged. -/
def toUpperCase (s : JsString) : JsString := s.map Char.toUpper

/-- The test `/^[0-9A-F]+$/.test(uid)`: one or more characters, all in `[0-9A-F]`. -/
def testUpperHex (uid : JsString) : Bool := !uid.isEmpty && uid.all isUpperHexDigit

/-- Lines 159 to 164: the value of the constant `uid`, when control reaches its
definition (`line` includes the marker, the regular expression matches and
capture group 1 is truthy, that is non-empty). -/
def clean_uid (line : JsString) : Option JsString :=
  if includes line MARKER then
    match regexMatch line with
    | some grp => if !grp.isEmpty then some (toUpperCase (removeColons grp)) else none
    | none => none
  else none

/-- The condition of line 167: `uid.length === 8 && /^[0-9A-F]+$/.test(uid)`. -/
def uid_is_valid (uid : JsString) : Bool := uid.length == 8 && testUpperHex uid

/-- Lines 180 to 193: the `if / else if / else` chain on `uid`, which fixes the
new value of `is_admin_unlocked` and the value of `card_type`. -/
def card_policy (is_admin_unlocked : Bool) (uid : JsString) : Bool × CardStatus :=
  if uid = HAPPY_CARD_UID then (true, .admin_unlock)
  else if uid = UNHAPPY_CARD_UID then (false, .lock)
  else (is_admin_unlocked, .unknown)

/-- Lines 168 to 209: what `process_arduino_line` does once `uid` has passed
the validation of line 167. The duplicate test returns early; otherwise the
debounce record is written, the policy applied, `last_card_scan` replaced and
`card_processed` sent with `io.emit`. -/
def handle_valid_uid (s : State) (uid : JsString) (current_time : Int)
    (timestamp : String) : State × List Emit :=
  if s.last_processed_uid = some uid ∧ current_time - s.last_card_time < 2000 then
    (s, [])
  else
    let verdict := card_policy s.is_admin_unlocked uid
    let scan : CardScan := { uid := uid, timestamp := timestamp, status := verdict.2 }
    ({ is_admin_unlocked := verdict.1
       last_card_scan := some scan
       last_processed_uid := some uid
       last_card_time := current_time },
     [{ recipient := .all
        msg := .card_processed uid timestamp verdict.2 verdict.1 (some scan) }])

/-- The function `process_arduino_line(line)` (lines 158 to 217). -/
def process_arduino_line (s : State) (line : JsString) (current_time : Int)
    (timestamp : String) : State × List Emit :=
  match clean_uid line with
  | some uid =>
    if uid_is_valid uid then handle_valid_uid s uid current_time timestamp
    else (s, [])
  | none => (s, [])

/-! ## Socket handlers -/

/-- The sentinel `"MANUAL"` used as `uid` by the manual handlers (lines 68, 83). -/
def MANUAL_UID : JsString := ['M', 'A', 'N', 'U', 'A', 'L']

/-- The `connection` handler (lines 45 to 58): the current status goes to the
new client only (`socket.emit`); no global is written. -/
def on_connection (s : State) (socket_id : Nat) : State × List Emit :=
  (s, [{ recipient := .socket socket_id
         msg := .status_update s.is_admin_unlocked s.last_card_scan }])

/-- The `disconnect` handler (lines 60 to 62): only logs. -/
def on_disconnect (s : State) (_socket_id : Nat) : State × List Emit := (s, [])

/-- The `manual_unlock` handler (lines 64 to 77). -/
def manual_unlock (s : State) (timestamp : String) : State × List Emit :=
  let scan : CardScan := { uid := MANUAL_UID, timestamp := timestamp, status := .manual_unlock }
  let s1 : State := { s with is_admin_unlocked := true, last_card_scan := some scan }
  (s1, [{ recipient := .all, msg := .status_update s1.is_admin_unlocked s1.last_card_scan }])

/-- The `manual_lock` handler (lines 79 to 92). -/
def manual_lock (s : State) (timestamp : String) : State × List Emit :=
  let scan : CardScan := { uid := MANUAL_UID, timestamp := timestamp, status := .manual_lock }
  let s1 : State := { s with is_admin_unlocked := false, last_card_scan := some scan }
  (s1, [{ recipient := .all, msg := .status_update s1.is_admin_unlocked s1.last_card_scan }])

/-- The `test_connection` handler (lines 94 to 101): an echo to the sender. -/
def test_connection (s : State) (socket_id : Nat) (server_time client_data : String) :
    State × List Emit :=
  (s, [{ recipient := .socket socket_id
         msg := .test_response "Connection test successful!" server_time client_data }])

/-- Everything that can invoke a handler touching the lock state: a line from
the serial parser (with the two clock readings the handler takes), and the
socket events. -/
inductive Event where
  | serial_line (line : JsString) (current_time : Int) (timestamp : String)
  | connection (socket_id : Nat)
  | disconnect (socket_id : Nat)
  | manual_unlock (timestamp : String)
  | manual_lock (timestamp : String)
  | test_connection (socket_id : Nat) (server_time client_data : String)
  deriving DecidableEq, Repr

/-- Run the handler of one event. Handlers run to completion, one at a time. -/
def step (s : State) : Event → State × List Emit
  | .serial_line line current_time timestamp =>
    process_arduino_line s line current_time timestamp
  | .connection socket_id => on_connection s socket_id
  | .disconnect socket_id => on_disconnect s socket_id
  | .manual_unlock timestamp => manual_unlock s timestamp
  | .manual_lock timestamp => manual_lock s timestamp
  | .test_connection socket_id server_time client_data =>
    test_connection s socket_id server_time client_data

/-- Run the handlers of a sequence of events in arrival order; the emitted
messages are collected in order. -/
def run (s : State) : List Event → State × List Emit
  | [] => (s, [])
  | e :: es =>
    let r := step s e
    let r' := run r.1 es
    (r'.1, r.2 ++ r'.2)

/-- The `admin_unlocked` field of a status or card message. -/
def Message.admin_unlocked? : Message → Option Bool
  | .status_update a _ => some a
  | .card_processed _ _ _ a _ => some a
  | .test_response _ _ _ => none

/-- The `last_card_scan` field of a status or card message. -/
def Message.last_card_scan? : Message → Option (Option CardScan)
  | .status_update _ l => some l
  | .card_processed _ _ _ _ l => some l
  | .test_response _ _ _ => none

/-- The agreement between `is_admin_unlocked` and `last_card_scan`: an unlock
status means unlocked, a lock status means locked, no scan yet means locked. -/
def Agrees (s : State) : Prop :=
  match s.last_card_scan with
  | none => s.is_admin_unlocked = false
  | some scan =>
    ((scan.status = .admin_unlock ∨ scan.status = .manual_unlock) →
        s.is_admin_unlocked = true) ∧
    ((scan.status = .lock ∨ scan.status = .manual_lock) → s.is_admin_unlocked = false)

/-- Some offset of `line` carries the head `Card UID: ` immediately followed by
four pairs of hex digits separated by colons. -/
def HasUidOccurrence (line : JsString) : Prop :=
  ∃ (pre post : JsString) (a b c d e f g h : Char),
    [a, b, c, d, e, f, g, h].all isHexDigit = true ∧
    line = pre ++ (REGEX_HEAD ++ [a, b, ':', c, d, ':', e, f, ':', g, h] ++ post)

/-- The 22 characters of the class `[0-9A-Fa-f]`. -/
def hexChars : List Char :=
  ['0', '1', '2', '3', '4', '5', '6', '7', '8', '9', 'A', 'B', 'C', 'D', 'E', 'F',
   'a', 'b', 'c', 'd', 'e', 'f']

/-! ## Serial link supervisor -/

/-- The life cycle of one `SerialPort` object, as far as the supervisor is
concerned: `open()` has been called and has not finished, the port is open, or
the port is closed (it failed to open or was closed). The port objects belong
to the serialport library; the handlers of the source only react to its
notifications. -/
inductive PortStatus where
  | opening
  | opened
  | closed
  deriving DecidableEq, Repr

/-- The supervisor state: every port object created so far (oldest first), the
global `arduino_serial` (an index into `ports`, `none` for `null`), and the
number of `setTimeout` callbacks of `reconnect_arduino` not yet run. -/
structure LinkState where
  ports : List PortStatus
  arduino_serial : Option Nat
  pending_timers : Nat
  deriving DecidableEq, Repr

/-- Before `server.listen` calls back: no port object, no timer. -/
def LinkState.initial : LinkState :=
  { ports := [], arduino_serial := none, pending_timers := 0 }

/-- The function `reconnect_arduino()` (lines 150 to 156): one more timer. It
looks at no state. -/
def reconnect_arduino (l : LinkState) : LinkState :=
  { l with pending_timers := l.pending_timers + 1 }

/-- The function `init_arduino_connection()` (lines 113 to 148). `throws` says
whether the `SerialPort` constructor throws, which sends control to the
`catch` block; otherwise a new port object is stored in `arduino_serial`, its
handlers are registered and `open()` is called on it. -/
def init_arduino_connection (l : LinkState) (throws : Bool) : LinkState :=
  if throws then reconnect_arduino l
  else { l with ports := l.ports ++ [.opening], arduino_serial := some l.ports.length }

/-- What can happen to the supervisor: a notification from a port object, or a
reconnect timer running its callback (`throws` as in `init_arduino_connection`). -/
inductive LinkEvent where
  | port_open (port : Nat)
  | port_error (port : Nat)
  | port_close (port : Nat)
  | timer_expiry (throws : Bool)
  deriving DecidableEq, Repr

/-- The handlers registered on lines 124 to 141 and the timer callback of lines
152 to 155. The `open` handler only logs; the `error` and `close` handlers
call `reconnect_arduino()` whatever the state is. The status recorded for the
port follows the notification: open after `open`, closed after `close`, and an
`error` closes a port that was still opening and leaves an open port open. -/
def link_step (l : LinkState) : LinkEvent → LinkState
  | .port_open i => { l with ports := l.ports.set i .opened }
  | .port_error i =>
    reconnect_arduino
      { l with ports := if l.ports[i]? = some .opening then l.ports.set i .closed
                        else l.ports }
  | .port_close i => reconnect_arduino { l with ports := l.ports.set i .closed }
  | .timer_expiry throws =>
    if l.pending_timers = 0 then l
    else init_arduino_connection { l with pending_timers := l.pending_timers - 1 } throws

/-- Run the supervisor over a sequence of notifications and timer expiries. -/
def link_run (l : LinkState) : List LinkEvent → LinkState
  | [] => l
  | e :: es => link_run (link_step l e) es

/-- A port that is opening or open. -/
def PortStatus.live : PortStatus → Bool
  | .closed => false
  | _ => true

/-- The number of link attempts in progress: pending reconnect timers plus port
objects that are opening or open. -/
def active_attempts (l : LinkState) : Nat :=
  l.pending_timers + l.ports.countP PortStatus.live

/-- A notification that follows the life cycle of its port object: `open` and
`error` (a failed open) come from a port that is opening, `close` from a port
that is open, and a timer expires only if one is pending. -/
def in_lifecycle (l : LinkState) : LinkEvent → Bool
  | .port_open i => l.ports[i]? == some .opening
  | .port_error i => l.ports[i]? == some .opening
  | .port_close i => l.ports[i]? == some .opened
  | .timer_expiry _ => 0 < l.pending_timers

/-- Every event of the sequence follows the life cycle at the moment it arrives. -/
def all_in_lifecycle (l : LinkState) : List LinkEvent → Bool
  | [] => true
  | e :: es => in_lifecycle l e && all_in_lifecycle (link_step l e) es

/-! ## Facts about the string operations -/

theorem char_le_iff_toNat (a b : Char) : a ≤ b ↔ a.toNat ≤ b.toNat := Iff.rfl

theorem isHexDigit_mem (c : Char) (h : isHexDigit c = true) : c ∈ hexChars := by
  have hc : c = Char.ofNat c.toNat := (Char.ofNat_toNat c).symm
  simp only [isHexDigit, Bool.or_eq_true, Bool.and_eq_true, decide_eq_true_eq,
    char_le_iff_toNat] at h
  have e0 : ('0' : Char).toNat = 48 := rfl
  have e9 : ('9' : Char).toNat = 57 := rfl
  have eA : ('A' : Char).toNat = 65 := rfl
  have eF : ('F' : Char).toNat = 70 := rfl
  have ea : ('a' : Char).toNat = 97 := rfl
  have ef : ('f' : Char).toNat = 102 := rfl
  rw [e0, e9, eA, eF, ea, ef] at h
  generalize c.toNat = n at h hc
  subst hc
  rcases h with (⟨h1, h2⟩ | ⟨h1, h2⟩) | ⟨h1, h2⟩ <;> interval_cases n <;> decide

/-- Upper-casing a hex digit gives a character of `[0-9A-F]` that is not a colon. -/
theorem toUpper_hex (c : Char) (h : isHexDigit c = true) :
    isUpperHexDigit c.toUpper = true ∧ c ≠ ':' := by
  have hm := isHexDigit_mem c h
  simp only [hexChars, List.mem_cons, List.not_mem_nil, or_false] at hm
  rcases hm with h | h | h | h | h | h | h | h | h | h | h | h | h | h | h | h | h | h
    | h | h | h | h <;> subst h <;> decide

/-- What a successful match at the start of `l` looks like. -/
theorem matchHere_some (l grp : JsString) (hm : matchHere l = some grp) :
    ∃ a b c d e f g h post,
      l = REGEX_HEAD ++ [a, b, ':', c, d, ':', e, f, ':', g, h] ++ post ∧
      grp = [a, b, ':', c, d, ':', e, f, ':', g, h] ∧
      isHexDigit a = true ∧ isHexDigit b = true ∧ isHexDigit c = true ∧
      isHexDigit d = true ∧ isHexDigit e = true ∧ isHexDigit f = true ∧
      isHexDigit g = true ∧ isHexDigit h = true := by
  unfold matchHere at hm
  split at hm
  · rename_i hp
    have hl : l = REGEX_HEAD ++ l.drop 10 := by
      obtain ⟨t, ht⟩ := List.isPrefixOf_iff_prefix.mp hp
      subst ht
      simp [REGEX_HEAD]
    split at hm
    · rename_i a b s1 c d s2 e f s3 g h post hd
      split at hm
      · rename_i hc
        simp only [Bool.and_eq_true, beq_iff_eq] at hc
        obtain ⟨⟨⟨⟨⟨⟨⟨⟨⟨⟨ha, hb⟩, h1⟩, hc⟩, hd'⟩, h2⟩, he⟩, hf⟩, h3⟩, hg⟩, hh⟩ := hc
        subst h1 h2 h3
        refine ⟨a, b, c, d, e, f, g, h, post, ?_, ?_, ha, hb, hc, hd', he, hf, hg, hh⟩
        · rw [hl, hd]; simp
        · simpa using hm.symm
      · simp at hm
    · simp at hm
  · simp at hm

/-- The pattern matches at the start of every occurrence of the head followed
by four colon-separated pairs of hex digits. -/
theorem matchHere_occurrence (a b c d e f g h : Char) (post : JsString)
    (hhex : [a, b, c, d, e, f, g, h].all isHexDigit = true) :
    matchHere (REGEX_HEAD ++ [a, b, ':', c, d, ':', e, f, ':', g, h] ++ post)
      = some [a, b, ':', c, d, ':', e, f, ':', g, h] := by
  simp only [List.all_cons, List.all_nil, Bool.and_true, Bool.and_eq_true] at hhex
  obtain ⟨ha, hb, hc, hd, he, hf, hg, hh⟩ := hhex
  simp [matchHere, REGEX_HEAD, List.isPrefixOf, ha, hb, hc, hd, he, hf, hg, hh]

theorem regexMatch_of_matchHere (l grp : JsString) (hm : matchHere l = some grp) :
    regexMatch l = some grp := by
  cases l with
  | nil => rw [regexMatch, hm]
  | cons c cs => rw [regexMatch, hm]

theorem regexMatch_cons_none (c : Char) (cs : JsString) (hm : matchHere (c :: cs) = none) :
    regexMatch (c :: cs) = regexMatch cs := by
  rw [regexMatch, hm]

/-- The unanchored search succeeds as soon as the pattern matches at some offset. -/
theorem regexMatch_append_isSome (pre l grp : JsString) (hm : matchHere l = some grp) :
    ∃ grp', regexMatch (pre ++ l) = some grp' := by
  induction pre with
  | nil => exact ⟨grp, regexMatch_of_matchHere l grp hm⟩
  | cons p ps ih =>
    obtain ⟨g, hg⟩ := ih
    cases hp : matchHere (p :: (ps ++ l)) with
    | some g0 => exact ⟨g0, regexMatch_of_matchHere _ _ hp⟩
    | none => exact ⟨g, by rw [List.cons_append, regexMatch_cons_none _ _ hp, hg]⟩

/-- The unanchored search returns the match at the first offset where the
pattern matches. -/
theorem regexMatch_append_first (pre l grp : JsString) (hm : matchHere l = some grp)
    (hfirst : ∀ k, k < pre.length → matchHere ((pre ++ l).drop k) = none) :
    regexMatch (pre ++ l) = some grp := by
  induction pre with
  | nil => exact regexMatch_of_matchHere l grp hm
  | cons p ps ih =>
    have h0 := hfirst 0 (by simp)
    simp only [List.drop_zero, List.cons_append] at h0
    rw [List.cons_append, regexMatch_cons_none _ _ h0]
    apply ih
    intro k hk
    have := hfirst (k + 1) (by simpa using hk)
    simpa using this

/-- A successful search found the pattern at some offset of the line, and at
no earlier offset. -/
theorem regexMatch_some (l grp : JsString) (hm : regexMatch l = some grp) :
    ∃ pre rest, l = pre ++ rest ∧ matchHere rest = some grp ∧
      ∀ k, k < pre.length → matchHere (l.drop k) = none := by
  induction l with
  | nil => exact ⟨[], [], rfl, by simpa [regexMatch] using hm, by simp⟩
  | cons c cs ih =>
    cases hp : matchHere (c :: cs) with
    | some g0 =>
      rw [regexMatch_of_matchHere _ _ hp] at hm
      simp only [Option.some.injEq] at hm
      subst hm
      exact ⟨[], c :: cs, rfl, hp, by simp⟩
    | none =>
      rw [regexMatch_cons_none _ _ hp] at hm
      obtain ⟨pre, rest, hl, hr, hf⟩ := ih hm
      refine ⟨c :: pre, rest, by simp [hl], hr, ?_⟩
      intro k hk
      cases k with
      | zero => simpa using hp
      | succ j =>
        have := hf j (by simpa using hk)
        simpa using this

theorem includes_of_isPrefixOf (l needle : JsString) (hp : needle.isPrefixOf l = true) :
    includes l needle = true := by
  cases l with
  | nil => rw [includes, hp]
  | cons c cs => rw [includes, hp, Bool.true_or]

/-- A needle is included in every string it occurs in. -/
theorem includes_append (pre needle post : JsString) :
    includes (pre ++ (needle ++ post)) needle = true := by
  induction pre with
  | nil =>
    exact includes_of_isPrefixOf _ _
      (List.isPrefixOf_iff_prefix.mpr (List.prefix_append _ _))
  | cons p ps ih =>
    rw [List.cons_append, includes, ih, Bool.or_true]

theorem includes_of_regexMatch (l grp : JsString) (hm : regexMatch l = some grp) :
    includes l MARKER = true := by
  obtain ⟨pre, rest, hl, hr, -⟩ := regexMatch_some l grp hm
  obtain ⟨a, b, c, d, e, f, g, h, post, hrest, -⟩ := matchHere_some rest grp hr
  have : l = pre ++ (MARKER ++ ([' '] ++ [a, b, ':', c, d, ':', e, f, ':', g, h] ++ post)) := by
    rw [hl, hrest]; simp [REGEX_HEAD, MARKER]
  rw [this]
  exact includes_append _ _ _

/-- Lines 163 and 164 on a capture group: the colons go, the digits are
upper-cased, nothing else changes. -/
theorem toUpperCase_removeColons (a b c d e f g h : Char)
    (hhex : [a, b, c, d, e, f, g, h].all isHexDigit = true) :
    toUpperCase (removeColons [a, b, ':', c, d, ':', e, f, ':', g, h])
      = [a.toUpper, b.toUpper, c.toUpper, d.toUpper, e.toUpper, f.toUpper,
         g.toUpper, h.toUpper] := by
  simp only [List.all_cons, List.all_nil, Bool.and_true, Bool.and_eq_true] at hhex
  obtain ⟨ha, hb, hc, hd, he, hf, hg, hh⟩ := hhex
  have ha' : (a != ':') = true := by simpa using (toUpper_hex a ha).2
  have hb' : (b != ':') = true := by simpa using (toUpper_hex b hb).2
  have hc' : (c != ':') = true := by simpa using (toUpper_hex c hc).2
  have hd' : (d != ':') = true := by simpa using (toUpper_hex d hd).2
  have he' : (e != ':') = true := by simpa using (toUpper_hex e he).2
  have hf' : (f != ':') = true := by simpa using (toUpper_hex f hf).2
  have hg' : (g != ':') = true := by simpa using (toUpper_hex g hg).2
  have hh' : (h != ':') = true := by simpa using (toUpper_hex h hh).2
  have hcolon : ((':' : Char) != ':') = false := by decide
  simp only [toUpperCase, removeColons, List.filter_cons, List.filter_nil, ha', hb', hc', hd',
    he', hf', hg', hh', hcolon, if_true, Bool.false_eq_true, if_false, List.map_cons,
    List.map_nil]

/-- Eight upper-cased hex digits pass the validation of line 167. -/
theorem upper_digits_valid (a b c d e f g h : Char)
    (hhex : [a, b, c, d, e, f, g, h].all isHexDigit = true) :
    uid_is_valid [a.toUpper, b.toUpper, c.toUpper, d.toUpper, e.toUpper, f.toUpper,
      g.toUpper, h.toUpper] = true ∧
    ∀ ch ∈ [a.toUpper, b.toUpper, c.toUpper, d.toUpper, e.toUpper, f.toUpper,
      g.toUpper, h.toUpper], isUpperHexDigit ch = true := by
  simp only [List.all_cons, List.all_nil, Bool.and_true, Bool.and_eq_true] at hhex
  obtain ⟨ha, hb, hc, hd, he, hf, hg, hh⟩ := hhex
  simp [uid_is_valid, testUpperHex, (toUpper_hex a ha).1, (toUpper_hex b hb).1,
    (toUpper_hex c hc).1, (toUpper_hex d hd).1, (toUpper_hex e he).1, (toUpper_hex f hf).1,
    (toUpper_hex g hg).1, (toUpper_hex h hh).1]

/-- The `uid` of line 164 for a line whose first match is at offset
`pre.length`. -/
theorem clean_uid_first_occurrence (pre post : JsString) (a b c d e f g h : Char)
    (hhex : [a, b, c, d, e, f, g, h].all isHexDigit = true)
    (hfirst : ∀ k, k < pre.length → matchHere
      ((pre ++ (REGEX_HEAD ++ [a, b, ':', c, d, ':', e, f, ':', g, h] ++ post)).drop k) = none) :
    clean_uid (pre ++ (REGEX_HEAD ++ [a, b, ':', c, d, ':', e, f, ':', g, h] ++ post))
      = some [a.toUpper, b.toUpper, c.toUpper, d.toUpper, e.toUpper, f.toUpper,
          g.toUpper, h.toUpper] := by
  have hm := regexMatch_append_first pre _ _
    (matchHere_occurrence a b c d e f g h post hhex) hfirst
  have hi := includes_of_regexMatch _ _ hm
  unfold clean_uid
  rw [hi, hm]
  simp only [if_true, List.isEmpty_cons, Bool.not_false]
  rw [toUpperCase_removeColons a b c d e f g h hhex]

/-- Whenever line 164 is reached, `uid` is the upper-cased digits of the first
occurrence of the pattern in the line. -/
theorem clean_uid_some (line uid : JsString) (hu : clean_uid line = some uid) :
    ∃ (pre post : JsString) (a b c d e f g h : Char),
      [a, b, c, d, e, f, g, h].all isHexDigit = true ∧
      line = pre ++ (REGEX_HEAD ++ [a, b, ':', c, d, ':', e, f, ':', g, h] ++ post) ∧
      (∀ k, k < pre.length → matchHere (line.drop k) = none) ∧
      uid = [a.toUpper, b.toUpper, c.toUpper, d.toUpper, e.toUpper, f.toUpper,
          g.toUpper, h.toUpper] := by
  unfold clean_uid at hu
  split at hu
  · split at hu
    · rename_i grp hm
      obtain ⟨pre, rest, hl, hr, hf⟩ := regexMatch_some line grp hm
      obtain ⟨a, b, c, d, e, f, g, h, post, hrest, hgrp, ha, hb, hc, hd, he, hf', hg, hh⟩ :=
        matchHere_some rest grp hr
      have hhex : [a, b, c, d, e, f, g, h].all isHexDigit = true := by
        simp [ha, hb, hc, hd, he, hf', hg, hh]
      refine ⟨pre, post, a, b, c, d, e, f, g, h, hhex, by rw [hl, hrest], hf, ?_⟩
      subst hgrp
      simp only [List.isEmpty_cons, Bool.not_false, if_true, Option.some.injEq] at hu
      rw [← hu, toUpperCase_removeColons a b c d e f g h hhex]
    · simp at hu
  · simp at hu

/-- Whenever line 164 is reached, the validation of line 167 passes. -/
theorem clean_uid_valid (line uid : JsString) (hu : clean_uid line = some uid) :
    uid_is_valid uid = true := by
  obtain ⟨pre, post, a, b, c, d, e, f, g, h, hhex, -, -, rfl⟩ := clean_uid_some line uid hu
  exact (upper_digits_valid a b c d e f g h hhex).1

/-- A line with an occurrence of the pattern reaches line 164. -/
theorem clean_uid_isSome (line : JsString) (ho : HasUidOccurrence line) :
    ∃ uid, clean_uid line = some uid := by
  obtain ⟨pre, post, a, b, c, d, e, f, g, h, hhex, rfl⟩ := ho
  obtain ⟨grp, hm⟩ := regexMatch_append_isSome pre _ _
    (matchHere_occurrence a b c d e f g h post hhex)
  have hi := includes_of_regexMatch _ _ hm
  obtain ⟨pre', rest, -, hr, -⟩ := regexMatch_some _ grp hm
  obtain ⟨a', b', c', d', e', f', g', h', -, -, hgrp, -⟩ := matchHere_some rest grp hr
  refine ⟨toUpperCase (removeColons grp), ?_⟩
  unfold clean_uid
  rw [hi, hm, hgrp]
  simp

/-- With a valid `uid` the function is the code after the validation. -/
theorem process_of_clean_uid (s : State) (line uid : JsString) (now : Int) (ts : String)
    (hu : clean_uid line = some uid) :
    process_arduino_line s line now ts = handle_valid_uid s uid now ts := by
  unfold process_arduino_line
  rw [hu]
  simp [clean_uid_valid line uid hu]

/-! ## Facts about the debounce filter and the policy -/

theorem handle_valid_uid_duplicate (s : State) (uid : JsString) (now : Int) (ts : String)
    (hd : s.last_processed_uid = some uid ∧ now - s.last_card_time < 2000) :
    handle_valid_uid s uid now ts = (s, []) := by
  unfold handle_valid_uid
  rw [if_pos hd]

theorem handle_valid_uid_accept (s : State) (uid : JsString) (now : Int) (ts : String)
    (hd : ¬ (s.last_processed_uid = some uid ∧ now - s.last_card_time < 2000)) :
    handle_valid_uid s uid now ts =
      ({ is_admin_unlocked := (card_policy s.is_admin_unlocked uid).1
         last_card_scan := some ⟨uid, ts, (card_policy s.is_admin_unlocked uid).2⟩
         last_processed_uid := some uid
         last_card_time := now },
       [⟨.all, .card_processed uid ts (card_policy s.is_admin_unlocked uid).2
          (card_policy s.is_admin_unlocked uid).1
          (some ⟨uid, ts, (card_policy s.is_admin_unlocked uid).2⟩)⟩]) := by
  unfold handle_valid_uid
  rw [if_neg hd]

/-- Nothing is emitted exactly when the duplicate test of lines 169 to 172 holds. -/
theorem handle_valid_uid_silent_iff (s : State) (uid : JsString) (now : Int) (ts : String) :
    (handle_valid_uid s uid now ts).2 = [] ↔
      (s.last_processed_uid = some uid ∧ now - s.last_card_time < 2000) := by
  by_cases hd : s.last_processed_uid = some uid ∧ now - s.last_card_time < 2000
  · simp [handle_valid_uid_duplicate s uid now ts hd, hd]
  · rw [handle_valid_uid_accept s uid now ts hd]
    simp only [List.cons_ne_nil, false_iff]
    exact hd

theorem card_policy_happy (b : Bool) :
    card_policy b HAPPY_CARD_UID = (true, .admin_unlock) := by
  simp [card_policy]

theorem card_policy_unhappy (b : Bool) :
    card_policy b UNHAPPY_CARD_UID = (false, .lock) := by
  have : UNHAPPY_CARD_UID ≠ HAPPY_CARD_UID := by decide
  simp [card_policy, this]

theorem card_policy_other (b : Bool) (uid : JsString) (h1 : uid ≠ HAPPY_CARD_UID)
    (h2 : uid ≠ UNHAPPY_CARD_UID) : card_policy b uid = (b, .unknown) := by
  simp [card_policy, h1, h2]

/-- The function either discards the line or runs the code after the
validation with the extracted `uid`. -/
theorem process_cases (s : State) (line : JsString) (now : Int) (ts : String) :
    process_arduino_line s line now ts = (s, []) ∨
    ∃ u, clean_uid line = some u ∧
      process_arduino_line s line now ts = handle_valid_uid s u now ts := by
  cases hu : clean_uid line with
  | none => left; unfold process_arduino_line; rw [hu]
  | some u => right; exact ⟨u, rfl, process_of_clean_uid s line u now ts hu⟩

/-! ## The claims -/

/-- C1: for every line that contains `Card UID: ` followed by four groups of two
hexadecimal digits (either case) separated by colons, line 164 is reached and
the `uid` computed there has length 8, has all its characters in `[0-9A-F]`,
and passes the validation of line 167, so that `process_arduino_line` goes on
to the debounce test with it. That `uid` is the eight digits of the first such
occurrence in the line (the one the regular expression matches), in their
order, upper-cased, without the colons; when the given occurrence is the first
one, it is exactly its digits `a b c d e f g h` upper-cased. -/
theorem C1_uid_normalization (pre post : JsString) (a b c d e f g h : Char)
    (hhex : [a, b, c, d, e, f, g, h].all isHexDigit = true) :
    (∃ uid : JsString,
      clean_uid (pre ++ (REGEX_HEAD ++ [a, b, ':', c, d, ':', e, f, ':', g, h] ++ post))
        = some uid ∧
      uid.length = 8 ∧ (∀ ch ∈ uid, isUpperHexDigit ch = true) ∧ uid_is_valid uid = true ∧
      (∀ (s : State) (now : Int) (ts : String),
        process_arduino_line s
          (pre ++ (REGEX_HEAD ++ [a, b, ':', c, d, ':', e, f, ':', g, h] ++ post)) now ts
          = handle_valid_uid s uid now ts) ∧
      ∃ (pre1 post1 : JsString) (a1 b1 c1 d1 e1 f1 g1 h1 : Char),
        [a1, b1, c1, d1, e1, f1, g1, h1].all isHexDigit = true ∧
        pre ++ (REGEX_HEAD ++ [a, b, ':', c, d, ':', e, f, ':', g, h] ++ post)
          = pre1 ++ (REGEX_HEAD ++ [a1, b1, ':', c1, d1, ':', e1, f1, ':', g1, h1] ++ post1) ∧
        pre1.length ≤ pre.length ∧
        uid = [a1.toUpper, b1.toUpper, c1.toUpper, d1.toUpper, e1.toUpper, f1.toUpper,
          g1.toUpper, h1.toUpper]) ∧
    ((∀ k, k < pre.length → matchHere
        ((pre ++ (REGEX_HEAD ++ [a, b, ':', c, d, ':', e, f, ':', g, h] ++ post)).drop k)
          = none) →
      clean_uid (pre ++ (REGEX_HEAD ++ [a, b, ':', c, d, ':', e, f, ':', g, h] ++ post))
        = some [a.toUpper, b.toUpper, c.toUpper, d.toUpper, e.toUpper, f.toUpper,
            g.toUpper, h.toUpper]) := by
  refine ⟨?_, clean_uid_first_occurrence pre post a b c d e f g h hhex⟩
  obtain ⟨uid, hu⟩ := clean_uid_isSome _
    ⟨pre, post, a, b, c, d, e, f, g, h, hhex, rfl⟩
  obtain ⟨pre1, post1, a1, b1, c1, d1, e1, f1, g1, h1, hhex1, hline, hfirst, huid⟩ :=
    clean_uid_some _ uid hu
  have hv := upper_digits_valid a1 b1 c1 d1 e1 f1 g1 h1 hhex1
  refine ⟨uid, hu, by rw [huid]; rfl, by rw [huid]; exact hv.2, by rw [huid]; exact hv.1,
    fun s now ts => process_of_clean_uid s _ uid now ts hu,
    pre1, post1, a1, b1, c1, d1, e1, f1, g1, h1, hhex1, hline, ?_, huid⟩
  by_contra hlt
  have hnone := hfirst pre.length (by omega)
  rw [List.drop_left] at hnone
  rw [matchHere_occurrence a b c d e f g h post hhex] at hnone
  exact absurd hnone (by simp)

/-- C1 at the line `> Card UID: aa:bb:cc:dd ` (one occurrence, so the first):
the extracted UID is `AABBCCDD`. -/
theorem C1_uid_normalization_witness :
    ['a', 'a', 'b', 'b', 'c', 'c', 'd', 'd'].all isHexDigit = true ∧
    (∀ k, k < ['>', ' '].length → matchHere
      ((['>', ' '] ++ (REGEX_HEAD ++ ['a', 'a', ':', 'b', 'b', ':', 'c', 'c', ':', 'd', 'd']
        ++ [' '])).drop k) = none) ∧
    clean_uid (['>', ' '] ++ (REGEX_HEAD ++
      ['a', 'a', ':', 'b', 'b', ':', 'c', 'c', ':', 'd', 'd'] ++ [' ']))
      = some ['A', 'A', 'B', 'B', 'C', 'C', 'D', 'D'] :=
  ⟨by decide, by decide,
   (C1_uid_normalization ['>', ' '] [' '] 'a' 'a' 'b' 'b' 'c' 'c' 'd' 'd' (by decide)).2
     (by decide)⟩

/-- C2: for every state and every line carrying a valid UID `u` that arrives at
time `now`, `process_arduino_line` suppresses the scan (broadcasts nothing) if
and only if `u` equals `last_processed_uid` and `now - last_card_time < 2000`.
A suppressed scan leaves the whole state unchanged and broadcasts nothing; an
accepted scan sets `last_processed_uid` to `u` and `last_card_time` to `now`
and broadcasts one message. After an accepted scan at `now`, any line carrying
`u` again is suppressed at `now + 1000` and accepted at `now + 2500` and at
exactly `now + 2000`. -/
theorem C2_debounce (s : State) (line u : JsString) (now : Int) (ts : String)
    (hu : clean_uid line = some u) :
    ((process_arduino_line s line now ts).2 = [] ↔
      (s.last_processed_uid = some u ∧ now - s.last_card_time < 2000)) ∧
    ((s.last_processed_uid = some u ∧ now - s.last_card_time < 2000) →
      process_arduino_line s line now ts = (s, [])) ∧
    (¬ (s.last_processed_uid = some u ∧ now - s.last_card_time < 2000) →
      (process_arduino_line s line now ts).1.last_processed_uid = some u ∧
      (process_arduino_line s line now ts).1.last_card_time = now ∧
      (process_arduino_line s line now ts).2.length = 1 ∧
      ∀ (line2 : JsString) (ts2 : String), clean_uid line2 = some u →
        process_arduino_line (process_arduino_line s line now ts).1 line2 (now + 1000) ts2
          = ((process_arduino_line s line now ts).1, []) ∧
        (process_arduino_line (process_arduino_line s line now ts).1 line2 (now + 2500)
          ts2).2.length = 1 ∧
        (process_arduino_line (process_arduino_line s line now ts).1 line2 (now + 2500)
          ts2).1.last_card_time = now + 2500 ∧
        (process_arduino_line (process_arduino_line s line now ts).1 line2 (now + 2000)
          ts2).2.length = 1 ∧
        (process_arduino_line (process_arduino_line s line now ts).1 line2 (now + 2000)
          ts2).1.last_card_time = now + 2000) := by
  rw [process_of_clean_uid s line u now ts hu]
  refine ⟨handle_valid_uid_silent_iff s u now ts, handle_valid_uid_duplicate s u now ts, ?_⟩
  intro hd
  rw [handle_valid_uid_accept s u now ts hd]
  refine ⟨rfl, rfl, rfl, ?_⟩
  intro line2 ts2 hu2
  simp only [process_of_clean_uid _ line2 u _ ts2 hu2]
  refine ⟨?_, ?_, ?_, ?_, ?_⟩
  · exact handle_valid_uid_duplicate _ u _ ts2 ⟨rfl, by simp⟩
  · rw [handle_valid_uid_accept _ u _ ts2 (by simp)]; rfl
  · rw [handle_valid_uid_accept _ u _ ts2 (by simp)]
  · rw [handle_valid_uid_accept _ u _ ts2 (by simp)]; rfl
  · rw [handle_valid_uid_accept _ u _ ts2 (by simp)]

/-- C2 at the initial state, line `Card UID: 6A:3C:54:73`, time 5000. -/
theorem C2_debounce_witness :
    clean_uid (REGEX_HEAD ++ ['6', 'A', ':', '3', 'C', ':', '5', '4', ':', '7', '3'])
      = some HAPPY_CARD_UID ∧
    ((process_arduino_line State.initial
        (REGEX_HEAD ++ ['6', 'A', ':', '3', 'C', ':', '5', '4', ':', '7', '3']) 5000 "t").2 = [] ↔
      (State.initial.last_processed_uid = some HAPPY_CARD_UID ∧
        (5000 : Int) - State.initial.last_card_time < 2000)) :=
  ⟨by decide,
   (C2_debounce State.initial
     (REGEX_HEAD ++ ['6', 'A', ':', '3', 'C', ':', '5', '4', ':', '7', '3'])
     HAPPY_CARD_UID 5000 "t" (by decide)).1⟩

/-- C3: for every valid UID `u` arriving in an accepted scan (one that
broadcasts), `u = "6A3C5473"` gives kind `admin_unlock` and
`is_admin_unlocked = true`, `u = "40547CA6"` gives kind `lock` and
`is_admin_unlocked = false`, every other `u` gives kind `unknown` and leaves
`is_admin_unlocked` as it was; in all three cases `last_card_scan` becomes the
record of `u`, the timestamp and the kind, and that kind is the `type` sent. -/
theorem C3_policy (s : State) (line u : JsString) (now : Int) (ts : String)
    (hu : clean_uid line = some u)
    (hacc : (process_arduino_line s line now ts).2 ≠ []) :
    (u = HAPPY_CARD_UID →
      (process_arduino_line s line now ts).1.is_admin_unlocked = true ∧
      (process_arduino_line s line now ts).1.last_card_scan = some ⟨u, ts, .admin_unlock⟩ ∧
      (process_arduino_line s line now ts).2 =
        [⟨.all, .card_processed u ts .admin_unlock true (some ⟨u, ts, .admin_unlock⟩)⟩]) ∧
    (u = UNHAPPY_CARD_UID →
      (process_arduino_line s line now ts).1.is_admin_unlocked = false ∧
      (process_arduino_line s line now ts).1.last_card_scan = some ⟨u, ts, .lock⟩ ∧
      (process_arduino_line s line now ts).2 =
        [⟨.all, .card_processed u ts .lock false (some ⟨u, ts, .lock⟩)⟩]) ∧
    (u ≠ HAPPY_CARD_UID → u ≠ UNHAPPY_CARD_UID →
      (process_arduino_line s line now ts).1.is_admin_unlocked = s.is_admin_unlocked ∧
      (process_arduino_line s line now ts).1.last_card_scan = some ⟨u, ts, .unknown⟩ ∧
      (process_arduino_line s line now ts).2 =
        [⟨.all, .card_processed u ts .unknown s.is_admin_unlocked
          (some ⟨u, ts, .unknown⟩)⟩]) := by
  rw [process_of_clean_uid s line u now ts hu] at hacc ⊢
  have hd : ¬ (s.last_processed_uid = some u ∧ now - s.last_card_time < 2000) :=
    fun h => hacc ((handle_valid_uid_silent_iff s u now ts).mpr h)
  rw [handle_valid_uid_accept s u now ts hd]
  refine ⟨?_, ?_, ?_⟩
  · intro h
    subst h
    simp [card_policy_happy]
  · intro h
    subst h
    simp [card_policy_unhappy]
  · intro h1 h2
    simp [card_policy_other _ u h1 h2]

/-- C3 at the initial state with the unknown card `Card UID: 01:02:03:04`. -/
theorem C3_policy_witness :
    clean_uid (REGEX_HEAD ++ ['0', '1', ':', '0', '2', ':', '0', '3', ':', '0', '4'])
      = some ['0', '1', '0', '2', '0', '3', '0', '4'] ∧
    (process_arduino_line State.initial
      (REGEX_HEAD ++ ['0', '1', ':', '0', '2', ':', '0', '3', ':', '0', '4']) 7 "t").2 ≠ [] ∧
    (process_arduino_line State.initial
      (REGEX_HEAD ++ ['0', '1', ':', '0', '2', ':', '0', '3', ':', '0', '4']) 7 "t").1.last_card_scan
      = some ⟨['0', '1', '0', '2', '0', '3', '0', '4'], "t", .unknown⟩ :=
  ⟨by decide, by decide,
   ((C3_policy State.initial
      (REGEX_HEAD ++ ['0', '1', ':', '0', '2', ':', '0', '3', ':', '0', '4'])
      ['0', '1', '0', '2', '0', '3', '0', '4'] 7 "t" (by decide) (by decide)).2.2
      (by decide) (by decide)).2.1⟩

/-! ## The lock state and its last event -/

theorem agrees_handle_valid_uid (s : State) (uid : JsString) (now : Int) (ts : String)
    (ha : Agrees s) : Agrees (handle_valid_uid s uid now ts).1 := by
  by_cases hd : s.last_processed_uid = some uid ∧ now - s.last_card_time < 2000
  · rw [handle_valid_uid_duplicate s uid now ts hd]; exact ha
  · rw [handle_valid_uid_accept s uid now ts hd]
    by_cases h1 : uid = HAPPY_CARD_UID
    · subst h1; simp [Agrees, card_policy_happy]
    · by_cases h2 : uid = UNHAPPY_CARD_UID
      · subst h2; simp [Agrees, card_policy_unhappy]
      · simp [Agrees, card_policy_other _ uid h1 h2]

theorem agrees_process (s : State) (line : JsString) (now : Int) (ts : String)
    (ha : Agrees s) : Agrees (process_arduino_line s line now ts).1 := by
  rcases process_cases s line now ts with h | ⟨u, -, h⟩
  · rw [h]; exact ha
  · rw [h]; exact agrees_handle_valid_uid s u now ts ha

theorem agrees_step (s : State) (e : Event) (ha : Agrees s) : Agrees (step s e).1 := by
  cases e with
  | serial_line line now ts => exact agrees_process s line now ts ha
  | connection id => exact ha
  | disconnect id => exact ha
  | manual_unlock ts => simp [step, manual_unlock, Agrees]
  | manual_lock ts => simp [step, manual_lock, Agrees]
  | test_connection id t d => exact ha

theorem agrees_run (evs : List Event) (s : State) (ha : Agrees s) : Agrees (run s evs).1 := by
  induction evs generalizing s with
  | nil => exact ha
  | cons e es ih => exact ih (step s e).1 (agrees_step s e ha)

/-- A `card_processed` message of kind `unknown` is only sent by a handler run
that left `is_admin_unlocked` alone. -/
theorem unknown_keeps_flag (s : State) (e : Event) (uid : JsString) (ts : String)
    (a : Bool) (l : Option CardScan)
    (hm : (⟨.all, .card_processed uid ts .unknown a l⟩ : Emit) ∈ (step s e).2) :
    (step s e).1.is_admin_unlocked = s.is_admin_unlocked := by
  cases e with
  | serial_line line now ts1 =>
    simp only [step] at hm ⊢
    rcases process_cases s line now ts1 with h | ⟨u, -, h⟩
    · rw [h]
    · rw [h] at hm ⊢
      by_cases hd : s.last_processed_uid = some u ∧ now - s.last_card_time < 2000
      · rw [handle_valid_uid_duplicate s u now ts1 hd]
      · rw [handle_valid_uid_accept s u now ts1 hd] at hm ⊢
        simp only [List.mem_singleton, Emit.mk.injEq, Message.card_processed.injEq,
          true_and] at hm
        obtain ⟨-, -, hk, -, -⟩ := hm
        by_cases h1 : u = HAPPY_CARD_UID
        · subst h1; simp [card_policy_happy] at hk
        · by_cases h2 : u = UNHAPPY_CARD_UID
          · subst h2; simp [card_policy_unhappy] at hk
          · simp [card_policy_other _ u h1 h2]
  | connection id => rfl
  | disconnect id => rfl
  | manual_unlock ts1 => simp [step, manual_unlock] at hm
  | manual_lock ts1 => simp [step, manual_lock] at hm
  | test_connection id t d => rfl

/-- C4: in every state reached from the initial state by any finite sequence of
serial lines (arbitrary arrival times), `manual_unlock` and `manual_lock`
messages, client connections (and disconnections and connection tests),
`is_admin_unlocked` agrees with `last_card_scan`: status `admin_unlock` or
`manual_unlock` means `true`, status `lock` or `manual_lock` means `false`, no
scan means `false`; and an event of kind `unknown` leaves `is_admin_unlocked`
as it was before that event. -/
theorem C4_state_agrees_with_last_event (evs : List Event) :
    (((run State.initial evs).1.last_card_scan = none →
        (run State.initial evs).1.is_admin_unlocked = false) ∧
     (∀ scan, (run State.initial evs).1.last_card_scan = some scan →
        ((scan.status = .admin_unlock ∨ scan.status = .manual_unlock) →
          (run State.initial evs).1.is_admin_unlocked = true) ∧
        ((scan.status = .lock ∨ scan.status = .manual_lock) →
          (run State.initial evs).1.is_admin_unlocked = false))) ∧
    (∀ (e : Event) (uid : JsString) (ts : String) (a : Bool) (l : Option CardScan),
      (⟨.all, .card_processed uid ts .unknown a l⟩ : Emit)
          ∈ (step (run State.initial evs).1 e).2 →
        (step (run State.initial evs).1 e).1.is_admin_unlocked
          = (run State.initial evs).1.is_admin_unlocked) := by
  have hinit : Agrees State.initial := by simp [Agrees, State.initial]
  have ha := agrees_run evs State.initial hinit
  refine ⟨?_, fun e uid ts a l hm => unknown_keeps_flag _ e uid ts a l hm⟩
  unfold Agrees at ha
  constructor
  · intro hn
    rw [hn] at ha
    exact ha
  · intro scan hs
    rw [hs] at ha
    exact ha

/-- C5: for every state, the `manual_unlock` handler sets `is_admin_unlocked`
to `true` and the `manual_lock` handler sets it to `false`; each sets
`last_card_scan` to a record with uid `"MANUAL"` and its own kind as status,
broadcasts exactly one `status_update` to all clients carrying the new values,
and leaves `last_processed_uid` and `last_card_time` unchanged. -/
theorem C5_manual_override (s : State) (ts : String) :
    (manual_unlock s ts =
      ({ is_admin_unlocked := true
         last_card_scan := some ⟨MANUAL_UID, ts, .manual_unlock⟩
         last_processed_uid := s.last_processed_uid
         last_card_time := s.last_card_time },
       [⟨.all, .status_update true (some ⟨MANUAL_UID, ts, .manual_unlock⟩)⟩])) ∧
    (manual_lock s ts =
      ({ is_admin_unlocked := false
         last_card_scan := some ⟨MANUAL_UID, ts, .manual_lock⟩
         last_processed_uid := s.last_processed_uid
         last_card_time := s.last_card_time },
       [⟨.all, .status_update false (some ⟨MANUAL_UID, ts, .manual_lock⟩)⟩])) ∧
    MANUAL_UID = "MANUAL".toList :=
  ⟨rfl, rfl, by decide⟩

/-- C7: every accepted card scan (a line carrying a valid UID `u` that is not a
duplicate: `u` differs from `last_processed_uid` or at least 2000 ms have
passed since `last_card_time`) and every manual override broadcasts exactly
one message, to all clients; its `admin_unlocked` and `last_card_scan` fields
equal `is_admin_unlocked` and `last_card_scan` of the state right after the
operation, which is exactly the content of the `status_update` a client
connecting right afterwards receives, and connecting changes no state. A card
scan sends `card_processed`, whose `uid`, `timestamp` and `type` are those of
the new `last_card_scan`; a manual override sends `status_update`. -/
theorem C7_broadcast_matches_state (s : State) (e : Event)
    (he : (∃ line now ts u, e = .serial_line line now ts ∧ clean_uid line = some u ∧
        ¬ (s.last_processed_uid = some u ∧ now - s.last_card_time < 2000)) ∨
      (∃ ts, e = .manual_unlock ts) ∨ (∃ ts, e = .manual_lock ts)) :
    ∃ m : Message,
      (step s e).2 = [⟨.all, m⟩] ∧
      m.admin_unlocked? = some (step s e).1.is_admin_unlocked ∧
      m.last_card_scan? = some (step s e).1.last_card_scan ∧
      (∀ socket_id, on_connection (step s e).1 socket_id =
        ((step s e).1, [⟨.socket socket_id,
          .status_update (step s e).1.is_admin_unlocked (step s e).1.last_card_scan⟩])) ∧
      ((∃ line now ts, e = .serial_line line now ts) →
        ∃ scan, (step s e).1.last_card_scan = some scan ∧
          m = .card_processed scan.uid scan.timestamp scan.status
            (step s e).1.is_admin_unlocked (some scan)) ∧
      ((¬ ∃ line now ts, e = .serial_line line now ts) →
        m = .status_update (step s e).1.is_admin_unlocked (step s e).1.last_card_scan) := by
  rcases he with ⟨line, now, ts, u, rfl, hu, hd⟩ | ⟨ts, rfl⟩ | ⟨ts, rfl⟩
  · simp only [step]
    rw [process_of_clean_uid s line u now ts hu, handle_valid_uid_accept s u now ts hd]
    refine ⟨_, rfl, rfl, rfl, fun _ => rfl, fun _ => ⟨_, rfl, rfl⟩, ?_⟩
    intro hno
    exact absurd ⟨line, now, ts, rfl⟩ hno
  · refine ⟨_, rfl, rfl, rfl, fun _ => rfl, ?_, fun _ => rfl⟩
    rintro ⟨line, now, ts1, h⟩
    cases h
  · refine ⟨_, rfl, rfl, rfl, fun _ => rfl, ?_, fun _ => rfl⟩
    rintro ⟨line, now, ts1, h⟩
    cases h

/-- C7 on a card scan: after a manual lock, the line `Card UID: 6A:3C:54:73` at
time 5 is accepted and broadcasts the one `card_processed` message of the new
state. -/
theorem C7_broadcast_matches_state_witness :
    clean_uid "Card UID: 6A:3C:54:73".toList = some HAPPY_CARD_UID ∧
    ¬ ((manual_lock State.initial "t0").1.last_processed_uid = some HAPPY_CARD_UID ∧
        (5 : Int) - (manual_lock State.initial "t0").1.last_card_time < 2000) ∧
    (step (manual_lock State.initial "t0").1
        (.serial_line "Card UID: 6A:3C:54:73".toList 5 "t")).2
      = [⟨.all, .card_processed HAPPY_CARD_UID "t" .admin_unlock true
          (some ⟨HAPPY_CARD_UID, "t", .admin_unlock⟩)⟩] := by
  refine ⟨by decide, by decide, ?_⟩
  obtain ⟨m, hm, -, -, -, hscan, -⟩ := C7_broadcast_matches_state
    (manual_lock State.initial "t0").1 (.serial_line "Card UID: 6A:3C:54:73".toList 5 "t")
    (Or.inl ⟨_, _, _, HAPPY_CARD_UID, rfl, by decide, by decide⟩)
  obtain ⟨scan, hs, hmsg⟩ := hscan ⟨_, _, _, rfl⟩
  have hlast : (step (manual_lock State.initial "t0").1
      (.serial_line "Card UID: 6A:3C:54:73".toList 5 "t")).1.last_card_scan
      = some ⟨HAPPY_CARD_UID, "t", .admin_unlock⟩ := by decide
  have hflag : (step (manual_lock State.initial "t0").1
      (.serial_line "Card UID: 6A:3C:54:73".toList 5 "t")).1.is_admin_unlocked = true := by
    decide
  rw [hlast] at hs
  cases hs
  rw [hm, hmsg, hflag]

/-! ## Malformed lines -/

/-- The unanchored search finds something exactly on the lines that carry an
occurrence of the pattern. -/
theorem hasUidOccurrence_iff_regexMatch (line : JsString) :
    HasUidOccurrence line ↔ (regexMatch line).isSome = true := by
  constructor
  · rintro ⟨pre, post, a, b, c, d, e, f, g, h, hhex, rfl⟩
    obtain ⟨grp, hm⟩ := regexMatch_append_isSome pre _ _
      (matchHere_occurrence a b c d e f g h post hhex)
    rw [hm]; rfl
  · intro hs
    obtain ⟨grp, hm⟩ := Option.isSome_iff_exists.mp hs
    obtain ⟨pre, rest, hl, hr, -⟩ := regexMatch_some line grp hm
    obtain ⟨a, b, c, d, e, f, g, h, post, hrest, -, ha, hb, hc, hd, he, hf, hg, hh⟩ :=
      matchHere_some rest grp hr
    exact ⟨pre, post, a, b, c, d, e, f, g, h, by simp [ha, hb, hc, hd, he, hf, hg, hh],
      by rw [hl, hrest]⟩

/-- C6 as stated fails: the line `Card UID: 11:22:33:44:55` contains the marker
and a card identifier of five groups (ten hex digits, not eight), yet it is
not discarded: the first four groups are taken as UID `11223344`, the state
changes and a `card_processed` message is broadcast. -/
theorem C6_counterexample_five_groups :
    includes "Card UID: 11:22:33:44:55".toList MARKER = true ∧
    process_arduino_line State.initial "Card UID: 11:22:33:44:55".toList 0 "t"
      ≠ (State.initial, []) ∧
    process_arduino_line State.initial "Card UID: 11:22:33:44:55".toList 0 "t"
      = ({ is_admin_unlocked := false
           last_card_scan := some ⟨"11223344".toList, "t", .unknown⟩
           last_processed_uid := some "11223344".toList
           last_card_time := 0 },
         [⟨.all, .card_processed "11223344".toList "t" .unknown false
            (some ⟨"11223344".toList, "t", .unknown⟩)⟩]) := by
  decide

/-- C6, amended: for every state, a line is discarded (state unchanged, nothing
broadcast) when it does not contain the marker `Card UID:`, and when it
contains the marker but at no offset carries `Card UID: ` immediately followed
by four two-hex-digit groups separated by colons (fewer than four groups, a
group of the wrong size or a non-hexadecimal character among the first four
groups). -/
theorem C6_malformed_discarded (s : State) (line : JsString) (now : Int) (ts : String)
    (hbad : includes line MARKER = false ∨ ¬ HasUidOccurrence line) :
    process_arduino_line s line now ts = (s, []) := by
  have hnone : clean_uid line = none := by
    rcases hbad with h | h
    · unfold clean_uid
      rw [h]
      rfl
    · cases hu : clean_uid line with
      | none => rfl
      | some u =>
        obtain ⟨pre, post, a, b, c, d, e, f, g, h1, hhex, hl, -, -⟩ := clean_uid_some line u hu
        exact absurd ⟨pre, post, a, b, c, d, e, f, g, h1, hhex, hl⟩ h
  unfold process_arduino_line
  rw [hnone]

/-- C6 amended, at the three-group line `Card UID: 11:22:33` after a manual
unlock: the line is discarded. -/
theorem C6_malformed_discarded_witness :
    includes "Card UID: 11:22:33".toList MARKER = true ∧
    ¬ HasUidOccurrence "Card UID: 11:22:33".toList ∧
    process_arduino_line (manual_unlock State.initial "t0").1 "Card UID: 11:22:33".toList 9 "t"
      = ((manual_unlock State.initial "t0").1, []) :=
  ⟨by decide,
   fun h => absurd ((hasUidOccurrence_iff_regexMatch _).mp h) (by decide),
   C6_malformed_discarded _ _ 9 "t"
     (Or.inr (fun h => absurd ((hasUidOccurrence_iff_regexMatch _).mp h) (by decide)))⟩

/-! ## End-to-end scenarios -/

theorem clean_uid_happy_line :
    clean_uid "Card UID: 6A:3C:54:73".toList = some HAPPY_CARD_UID := by decide

theorem clean_uid_unhappy_line :
    clean_uid "Card UID: 40:54:7C:A6".toList = some UNHAPPY_CARD_UID := by decide

/-- C9: from the initial state, the line `Card UID: 6A:3C:54:73` at `t1`, the
same line at `t2` with `t1 ≤ t2 < t1 + 2000`, then `Card UID: 40:54:7C:A6` at
`t3 ≥ t1 + 2000` broadcast exactly two `card_processed` events, the first of
type `admin_unlock` with `admin_unlocked = true`, the second of type `lock`
with `admin_unlocked = false`; the duplicate in between broadcasts nothing and
changes no state; the final state is locked with
`last_card_scan.uid = "40547CA6"`. -/
theorem C9_end_to_end (t1 t2 t3 : Int) (ts1 ts2 ts3 : String)
    (h12 : t1 ≤ t2) (h2 : t2 < t1 + 2000) (_h3 : t1 + 2000 ≤ t3) :
    run State.initial
        [.serial_line "Card UID: 6A:3C:54:73".toList t1 ts1,
         .serial_line "Card UID: 6A:3C:54:73".toList t2 ts2,
         .serial_line "Card UID: 40:54:7C:A6".toList t3 ts3]
      = ({ is_admin_unlocked := false
           last_card_scan := some ⟨"40547CA6".toList, ts3, .lock⟩
           last_processed_uid := some "40547CA6".toList
           last_card_time := t3 },
         [⟨.all, .card_processed "6A3C5473".toList ts1 .admin_unlock true
            (some ⟨"6A3C5473".toList, ts1, .admin_unlock⟩)⟩,
          ⟨.all, .card_processed "40547CA6".toList ts3 .lock false
            (some ⟨"40547CA6".toList, ts3, .lock⟩)⟩]) ∧
    process_arduino_line
        (process_arduino_line State.initial "Card UID: 6A:3C:54:73".toList t1 ts1).1
        "Card UID: 6A:3C:54:73".toList t2 ts2
      = ((process_arduino_line State.initial "Card UID: 6A:3C:54:73".toList t1 ts1).1, []) := by
  have e1 : process_arduino_line State.initial "Card UID: 6A:3C:54:73".toList t1 ts1
      = ({ is_admin_unlocked := true
           last_card_scan := some ⟨HAPPY_CARD_UID, ts1, .admin_unlock⟩
           last_processed_uid := some HAPPY_CARD_UID
           last_card_time := t1 },
         [⟨.all, .card_processed HAPPY_CARD_UID ts1 .admin_unlock true
            (some ⟨HAPPY_CARD_UID, ts1, .admin_unlock⟩)⟩]) := by
    rw [process_of_clean_uid _ _ _ _ _ clean_uid_happy_line,
      handle_valid_uid_accept _ _ _ _ (by simp [State.initial]), card_policy_happy]
  have e2 : ∀ s : State, s.last_processed_uid = some HAPPY_CARD_UID → s.last_card_time = t1 →
      process_arduino_line s "Card UID: 6A:3C:54:73".toList t2 ts2 = (s, []) := by
    intro s hs ht
    rw [process_of_clean_uid _ _ _ _ _ clean_uid_happy_line]
    exact handle_valid_uid_duplicate _ _ _ _ ⟨hs, by rw [ht]; omega⟩
  have e3 : ∀ s : State, s.last_processed_uid = some HAPPY_CARD_UID →
      process_arduino_line s "Card UID: 40:54:7C:A6".toList t3 ts3
      = ({ is_admin_unlocked := false
           last_card_scan := some ⟨UNHAPPY_CARD_UID, ts3, .lock⟩
           last_processed_uid := some UNHAPPY_CARD_UID
           last_card_time := t3 },
         [⟨.all, .card_processed UNHAPPY_CARD_UID ts3 .lock false
            (some ⟨UNHAPPY_CARD_UID, ts3, .lock⟩)⟩]) := by
    intro s hs
    have hne : ¬ (s.last_processed_uid = some UNHAPPY_CARD_UID ∧ t3 - s.last_card_time < 2000) := by
      rw [hs]
      intro h
      exact absurd h.1 (by decide)
    rw [process_of_clean_uid _ _ _ _ _ clean_uid_unhappy_line,
      handle_valid_uid_accept _ _ _ _ hne, card_policy_unhappy]
  constructor
  · simp only [run, step]
    rw [e1]
    simp only []
    rw [e2 _ rfl rfl]
    simp only []
    rw [e3 _ rfl]
    rfl
  · rw [e1]
    exact e2 _ rfl rfl

/-- C9 at `t1 = 0`, `t2 = 300`, `t3 = 2000`. -/
theorem C9_end_to_end_witness :
    ((0 : Int) ≤ 300 ∧ (300 : Int) < 0 + 2000 ∧ (0 : Int) + 2000 ≤ 2000) ∧
    (run State.initial
        [.serial_line "Card UID: 6A:3C:54:73".toList 0 "a",
         .serial_line "Card UID: 6A:3C:54:73".toList 300 "b",
         .serial_line "Card UID: 40:54:7C:A6".toList 2000 "c"]).2
      = [⟨.all, .card_processed "6A3C5473".toList "a" .admin_unlock true
            (some ⟨"6A3C5473".toList, "a", .admin_unlock⟩)⟩,
          ⟨.all, .card_processed "40547CA6".toList "c" .lock false
            (some ⟨"40547CA6".toList, "c", .lock⟩)⟩] :=
  ⟨by decide,
   congrArg Prod.snd (C9_end_to_end 0 300 2000 "a" "b" "c" (by decide) (by decide)
     (by decide)).1⟩

/-- C10: the debounce window is one global slot that a different UID resets
whatever the timing: for all valid UIDs `X ≠ Y` and all arrival times `t1`,
`t2`, `t3`, once `X` is accepted at `t1`, `Y` at `t2` is accepted and `X` again
at `t3` is accepted too; each of the two broadcasts one `card_processed` event
for its UID and is recorded as the last processed UID. -/
theorem C10_different_uid_resets_window (s : State) (lineX lineY lineX2 X Y : JsString)
    (t1 t2 t3 : Int) (ts1 ts2 ts3 : String)
    (hX : clean_uid lineX = some X) (hY : clean_uid lineY = some Y)
    (hX2 : clean_uid lineX2 = some X) (hne : X ≠ Y)
    (hacc : (process_arduino_line s lineX t1 ts1).2 ≠ []) :
    (∃ k a l, (process_arduino_line (process_arduino_line s lineX t1 ts1).1 lineY t2 ts2).2
        = [⟨.all, .card_processed Y ts2 k a l⟩]) ∧
    (process_arduino_line (process_arduino_line s lineX t1 ts1).1 lineY t2 ts2).1.last_processed_uid
      = some Y ∧
    (process_arduino_line (process_arduino_line s lineX t1 ts1).1 lineY t2 ts2).1.last_card_time
      = t2 ∧
    (∃ k a l, (process_arduino_line
        (process_arduino_line (process_arduino_line s lineX t1 ts1).1 lineY t2 ts2).1
        lineX2 t3 ts3).2 = [⟨.all, .card_processed X ts3 k a l⟩]) ∧
    (process_arduino_line
        (process_arduino_line (process_arduino_line s lineX t1 ts1).1 lineY t2 ts2).1
        lineX2 t3 ts3).1.last_processed_uid = some X ∧
    (process_arduino_line
        (process_arduino_line (process_arduino_line s lineX t1 ts1).1 lineY t2 ts2).1
        lineX2 t3 ts3).1.last_card_time = t3 := by
  rw [process_of_clean_uid s lineX X t1 ts1 hX] at hacc ⊢
  have hd : ¬ (s.last_processed_uid = some X ∧ t1 - s.last_card_time < 2000) :=
    fun h => hacc ((handle_valid_uid_silent_iff s X t1 ts1).mpr h)
  rw [handle_valid_uid_accept s X t1 ts1 hd]
  simp only [process_of_clean_uid _ lineY Y t2 ts2 hY]
  have hd2 : ∀ (s2 : State), s2.last_processed_uid = some X →
      ¬ (s2.last_processed_uid = some Y ∧ t2 - s2.last_card_time < 2000) := by
    intro s2 h2 h
    rw [h2] at h
    exact hne (Option.some.inj h.1)
  rw [handle_valid_uid_accept _ Y t2 ts2 (hd2 _ rfl)]
  simp only [process_of_clean_uid _ lineX2 X t3 ts3 hX2]
  have hd3 : ∀ (s3 : State), s3.last_processed_uid = some Y →
      ¬ (s3.last_processed_uid = some X ∧ t3 - s3.last_card_time < 2000) := by
    intro s3 h3 h
    rw [h3] at h
    exact hne (Option.some.inj h.1).symm
  rw [handle_valid_uid_accept _ X t3 ts3 (hd3 _ rfl)]
  refine ⟨⟨_, _, _, rfl⟩, ?_, ?_, ⟨_, _, _, rfl⟩, ?_, ?_⟩ <;> first | rfl | trivial

/-- C10 at the initial state with `X = 6A3C5473` at 0, `Y = 40547CA6` at 500 and
`X` again at 700: the third scan broadcasts. -/
theorem C10_different_uid_resets_window_witness :
    (process_arduino_line State.initial "Card UID: 6A:3C:54:73".toList 0 "a").2 ≠ [] ∧
    (process_arduino_line
        (process_arduino_line
          (process_arduino_line State.initial "Card UID: 6A:3C:54:73".toList 0 "a").1
          "Card UID: 40:54:7C:A6".toList 500 "b").1
        "Card UID: 6a:3c:54:73".toList 700 "c").1.last_card_time = 700 :=
  ⟨by decide,
   (C10_different_uid_resets_window State.initial "Card UID: 6A:3C:54:73".toList
     "Card UID: 40:54:7C:A6".toList "Card UID: 6a:3c:54:73".toList
     HAPPY_CARD_UID UNHAPPY_CARD_UID 0 500 700 "a" "b" "c"
     (by decide) (by decide) (by decide) (by decide) (by decide)).2.2.2.2.2⟩

/-! ## The link supervisor -/

/-- Replacing the status of one port changes the number of live ports by the
difference between the new and the old status. -/
theorem countP_live_set (ps : List PortStatus) (i : Nat) (old new : PortStatus)
    (hi : ps[i]? = some old) :
    (ps.set i new).countP PortStatus.live + (if old.live then 1 else 0)
      = ps.countP PortStatus.live + (if new.live then 1 else 0) := by
  induction ps generalizing i with
  | nil => simp at hi
  | cons p ps ih =>
    cases i with
    | zero =>
      simp only [List.getElem?_cons_zero, Option.some.injEq] at hi
      subst hi
      simp only [List.set_cons_zero, List.countP_cons]
      omega
    | succ j =>
      simp only [List.getElem?_cons_succ] at hi
      have := ih j hi
      simp only [List.set_cons_succ, List.countP_cons]
      omega

/-- A notification that follows the life cycle keeps the number of attempts. -/
theorem active_attempts_step (l : LinkState) (e : LinkEvent) (he : in_lifecycle l e = true) :
    active_attempts (link_step l e) = active_attempts l := by
  cases e with
  | port_open i =>
    simp only [in_lifecycle, beq_iff_eq] at he
    have := countP_live_set l.ports i .opening .opened he
    simp only [PortStatus.live, if_true] at this
    simp only [link_step, active_attempts]
    omega
  | port_error i =>
    simp only [in_lifecycle, beq_iff_eq] at he
    have := countP_live_set l.ports i .opening .closed he
    simp only [PortStatus.live, if_true, Bool.false_eq_true, if_false] at this
    simp only [link_step, active_attempts, reconnect_arduino, he, if_true]
    omega
  | port_close i =>
    simp only [in_lifecycle, beq_iff_eq] at he
    have := countP_live_set l.ports i .opened .closed he
    simp only [PortStatus.live, if_true, Bool.false_eq_true, if_false] at this
    simp only [link_step, active_attempts, reconnect_arduino]
    omega
  | timer_expiry throws =>
    simp only [in_lifecycle, decide_eq_true_eq] at he
    have hne : l.pending_timers ≠ 0 := by omega
    cases throws with
    | true =>
      simp only [link_step, hne, if_false, init_arduino_connection, if_true,
        reconnect_arduino, active_attempts]
      omega
    | false =>
      simp only [link_step, hne, if_false, init_arduino_connection, Bool.false_eq_true,
        active_attempts, List.countP_append, List.countP_cons, List.countP_nil,
        PortStatus.live, if_true]
      omega

theorem active_attempts_run (evs : List LinkEvent) (l : LinkState)
    (h : all_in_lifecycle l evs = true) :
    active_attempts (link_run l evs) = active_attempts l := by
  induction evs generalizing l with
  | nil => rfl
  | cons e es ih =>
    simp only [all_in_lifecycle, Bool.and_eq_true] at h
    simp only [link_run]
    rw [ih (link_step l e) h.2, active_attempts_step l e h.1]

/-- C8 as stated fails: the handlers call `reconnect_arduino()` on every `error`
and every `close` notification without looking at any state. After start-up,
the notifications `open`, `error`, `close` of the first port leave two
reconnect timers pending (the second scheduled while the first is pending, the
first scheduled while the port is still open); when both expire, two port
objects are opening at the same time. -/
theorem C8_counterexample_overlapping_attempts :
    active_attempts (link_run (init_arduino_connection LinkState.initial false)
      [.port_open 0, .port_error 0]) = 2 ∧
    (link_run (init_arduino_connection LinkState.initial false)
      [.port_open 0, .port_error 0]).ports = [.opened] ∧
    (link_run (init_arduino_connection LinkState.initial false)
      [.port_open 0, .port_error 0, .port_close 0]).pending_timers = 2 ∧
    link_run (init_arduino_connection LinkState.initial false)
      [.port_open 0, .port_error 0, .port_close 0, .timer_expiry false, .timer_expiry false]
      = { ports := [.closed, .opening, .opening], arduino_serial := some 2,
          pending_timers := 0 } ∧
    ¬ (∀ evs : List LinkEvent,
        active_attempts (link_run (init_arduino_connection LinkState.initial false) evs) ≤ 1) := by
  refine ⟨by decide, by decide, by decide, by decide, ?_⟩
  intro h
  exact absurd (h [.port_open 0, .port_error 0]) (by decide)

/-- C8, amended: the supervisor keeps no guard, it schedules one timer per
`error` or `close` notification and starts one attempt per timer expiry. In
every run started by `init_arduino_connection` in which each notification
follows the life cycle of its port object (`open` or `error` from a port that
is opening, `close` from a port that is open, so at most one fault per port
object) exactly one link attempt is active at any time: the pending timers and
the ports that are opening or open number one in total. -/
theorem C8_one_attempt_within_lifecycle (throws : Bool) (evs : List LinkEvent)
    (h : all_in_lifecycle (init_arduino_connection LinkState.initial throws) evs = true) :
    active_attempts (link_run (init_arduino_connection LinkState.initial throws) evs) = 1 := by
  rw [active_attempts_run evs _ h]
  cases throws <;> rfl

/-- C8 amended, on a run with a failed open, a retry that opens, a close and a
second retry. -/
theorem C8_one_attempt_within_lifecycle_witness :
    all_in_lifecycle (init_arduino_connection LinkState.initial false)
      [.port_error 0, .timer_expiry false, .port_open 1, .port_close 1,
       .timer_expiry false] = true ∧
    active_attempts (link_run (init_arduino_connection LinkState.initial false)
      [.port_error 0, .timer_expiry false, .port_open 1, .port_close 1,
       .timer_expiry false]) = 1 :=
  ⟨by decide, C8_one_attempt_within_lifecycle false _ (by decide)⟩

end IoTSample
